import Mathlib

/-!
Verification of the resume ZIP-to-CSV extraction pipeline (src/app.py).

The embedding models the pipeline functions of the source:
- the structured output schema (class ResumeSchema) and its dict view,
- the file readers read_pdf / read_docx,
- the per-file loop of process_zip (classification by extension,
  blank-text skipping, the try/except around the LLM call),
- the scratch-directory lifecycle of process_zip (a with-block around
  tempfile.TemporaryDirectory),
- write_csv (csv.DictWriter with the default dialect),
- the module-level API key resolution.

External collaborators (PyPDF2, python-docx, the Gemini chat model with
the LangChain parser) are modelled as oracles: per-file read results and
a function from resume text to a parsed record or an error.  Filesystem
state is explicit: a record of existing scratch directories and of
persistent files, with a counter supplying fresh names.
-/

/-- The eight-field structured output schema (class ResumeSchema in the
source); every field is a string, as declared with pydantic. -/
structure ResumeSchema where
  name : String
  email : String
  phone : String
  skills : String
  experience_summary : String
  education : String
  linkedin : String
  github : String
deriving DecidableEq

/-- list(ResumeSchema.model_fields.keys()): the field names in declaration
order. -/
def fieldnames : List String :=
  ["name", "email", "phone", "skills", "experience_summary",
   "education", "linkedin", "github"]

/-- result.dict(): the record as an ordered key/value association, keys in
declaration order. -/
def ResumeSchema.dict (r : ResumeSchema) : List (String × String) :=
  [("name", r.name), ("email", r.email), ("phone", r.phone),
   ("skills", r.skills), ("experience_summary", r.experience_summary),
   ("education", r.education), ("linkedin", r.linkedin), ("github", r.github)]

/-- Python str.join: empty list gives the empty string, otherwise the
first element followed by separator-prefixed remaining elements. -/
def pyJoin (sep : String) : List String → String
  | [] => ""
  | x :: rest => rest.foldl (fun acc y => acc ++ sep ++ y) x

/-- read_pdf: PdfReader's pages yield Option String from extract_text
(none for a page with no extractable text); the source computes
"".join(page.extract_text() or "" for page in reader.pages). -/
def read_pdf (pages : List (Option String)) : String :=
  pyJoin "" (pages.map fun p => p.getD "")

/-- read_docx: "\n".join(p.text for p in doc.paragraphs). -/
def read_docx (paragraphs : List String) : String :=
  pyJoin "\n" paragraphs

/-- Python str.lower (ASCII-relevant part). -/
def pyLower (s : String) : String :=
  String.mk (s.data.map Char.toLower)

/-- Python str.endswith. -/
def pyEndsWith (s suffix : String) : Bool :=
  List.isSuffixOf suffix.data s.data

/-- Python "not text.strip()": true iff the string is empty or consists of
whitespace only. -/
def pyIsBlank (s : String) : Bool :=
  s.data.all fun c => c.isWhitespace

instance {ε α : Type} [DecidableEq ε] [DecidableEq α] :
    DecidableEq (Except ε α) := fun a b =>
  match a, b with
  | Except.ok x, Except.ok y =>
    if h : x = y then isTrue (by rw [h]) else isFalse (by simp [h])
  | Except.error x, Except.error y =>
    if h : x = y then isTrue (by rw [h]) else isFalse (by simp [h])
  | Except.ok _, Except.error _ => isFalse (by simp)
  | Except.error _, Except.ok _ => isFalse (by simp)

/-- One regular file encountered by os.walk inside the scratch directory.
`pdfRead` is what PdfReader yields when opened on this file's path (the
page list, or a raised exception), and `docxRead` what python-docx's
Document yields (the paragraph texts, or a raised exception); only the
reader selected by the extension check is ever invoked. -/
structure Entry where
  name : String
  pdfRead : Except String (List (Option String))
  docxRead : Except String (List String)
deriving DecidableEq

/-- The classification-plus-read step of the loop body: `none` when the
extension is neither .pdf nor .docx (the `continue` branch), otherwise the
text produced by the matching reader, or the exception it raised. -/
def readFile (e : Entry) : Option (Except String String) :=
  if pyEndsWith (pyLower e.name) ".pdf" then
    some (Except.map read_pdf e.pdfRead)
  else if pyEndsWith (pyLower e.name) ".docx" then
    some (Except.map read_docx e.docxRead)
  else
    none

/-- The st.warning message recorded when extract_resume_data raises. -/
def warnMsg (file err : String) : String :=
  "⚠️ Failed to parse " ++ file ++ ": " ++ err

/-- extract_resume_data: the chain prompt | llm | parser applied to the
resume text.  The chat model at temperature 0 together with the pydantic
output parser is the oracle `llm`: a function from resume text to a
schema-conforming record, or the exception the call or the parse raised. -/
def extract_resume_data (llm : String → Except String ResumeSchema)
    (resume_text : String) : Except String ResumeSchema :=
  llm resume_text

/-- The file loop of process_zip over the walked files, in walk order:
unsupported extensions are skipped, a reader exception propagates (it is
outside the try block, so it aborts the loop), blank text is skipped
silently, and an exception from extract_resume_data is caught and recorded
as a warning while processing continues.  Returns the accumulated records
and warnings in encounter order. -/
def process_files (llm : String → Except String ResumeSchema) :
    List Entry → Except String (List ResumeSchema × List String)
  | [] => Except.ok ([], [])
  | e :: rest =>
    match readFile e with
    | none => process_files llm rest
    | some (Except.error err) => Except.error err
    | some (Except.ok text) =>
      if pyIsBlank text then
        process_files llm rest
      else
        match extract_resume_data llm text with
        | Except.ok r =>
          Except.map (fun p => (r :: p.1, p.2)) (process_files llm rest)
        | Except.error err =>
          Except.map (fun p => (p.1, warnMsg e.name err :: p.2))
            (process_files llm rest)

/-- What the loop body does with a single file, as a datum: skipped
(unsupported extension or blank text), recorded (LLM call succeeded),
warned (LLM call raised, caught by the try), or aborted (reader raised,
not caught). -/
inductive Outcome where
  | skipped : Outcome
  | recorded : ResumeSchema → Outcome
  | warned : String → Outcome
  | aborted : String → Outcome
deriving DecidableEq

/-- The outcome of the loop body on one file. -/
def outcome (llm : String → Except String ResumeSchema) (e : Entry) :
    Outcome :=
  match readFile e with
  | none => Outcome.skipped
  | some (Except.error err) => Outcome.aborted err
  | some (Except.ok text) =>
    if pyIsBlank text then
      Outcome.skipped
    else
      match extract_resume_data llm text with
      | Except.ok r => Outcome.recorded r
      | Except.error err => Outcome.warned (warnMsg e.name err)

/-- Filesystem state: the scratch directories currently in existence (each
identifier standing for the directory together with its extracted
contents), the persistent files created so far, and a counter from which
tempfile draws fresh names. -/
structure FS where
  dirs : List Nat
  files : List Nat
  next : Nat
deriving DecidableEq

/-- The uploaded archive is written into the scratch directory before
extraction, so os.walk encounters the archive file itself among the
regular files; applying either reader to it raises. -/
def zipSelfEntry (zipName : String) : Entry :=
  { name := zipName
    pdfRead := Except.error "EOF marker not found"
    docxRead := Except.error "Package not found" }

/-- process_zip: create a scratch directory (tempfile.TemporaryDirectory
used as a context manager), materialize the archive inside it, unpack it
(`unzip` is the entry list, or the exception ZipFile/extractall raised),
walk the files, and delete the scratch directory on every exit path —
the with-block removes it whether the body returned or raised.  The
first component is process_zip's return value (or the exception that
propagated out of it); the second is the filesystem state afterwards. -/
def process_zip (llm : String → Except String ResumeSchema)
    (zipName : String) (unzip : Except String (List Entry)) (fs : FS) :
    Except String (List ResumeSchema × List String) × FS :=
  let d := fs.next
  let fsIn : FS := { fs with dirs := d :: fs.dirs, next := fs.next + 1 }
  let result :=
    match unzip with
    | Except.error err => Except.error err
    | Except.ok entries => process_files llm (zipSelfEntry zipName :: entries)
  let fsOut : FS := { fsIn with dirs := fsIn.dirs.erase d }
  (result, fsOut)

/-- Quoting of one field by csv.writer in the default dialect
(QUOTE_MINIMAL): a field containing the delimiter, the quote character or
a line-terminator character is wrapped in double quotes with embedded
quotes doubled; any other field is written verbatim. -/
def csvField (s : String) : String :=
  if s.data.any (fun c => c = ',' || c = '"' || c = '\r' || c = '\n') then
    "\"" ++
      String.mk (s.data.foldr
        (fun c acc => if c = '"' then '"' :: '"' :: acc else c :: acc) []) ++
    "\""
  else s

/-- One CSV row: comma-joined quoted cells terminated by the default
lineterminator "\r\n" (the file is opened with newline="", so it is
written literally). -/
def csvRow (cells : List String) : String :=
  pyJoin "," (cells.map csvField) ++ "\r\n"

/-- The bytes write_csv puts in the file: DictWriter.writeheader writes
the fieldnames row, then writerows writes one row per record, values in
fieldnames order. -/
def write_csv_content (data : List ResumeSchema) : String :=
  csvRow fieldnames ++ String.join (data.map fun r => csvRow (r.dict.map Prod.snd))

/-- write_csv: tempfile.NamedTemporaryFile(delete=False) creates a fresh
file that nothing in the program ever deletes; the CSV content is written
to it and its path returned.  The first component is (path, content
written); the second the filesystem state afterwards. -/
def write_csv (data : List ResumeSchema) (fs : FS) : (Nat × String) × FS :=
  let path := fs.next
  ((path, write_csv_content data),
   { fs with files := path :: fs.files, next := fs.next + 1 })

/-- os.environ[key] = value: assigning a missing lookup result (None) is
a TypeError; assigning a string updates the environment. -/
def envSetItem (env : List (String × String)) (key : String)
    (value : Option String) : Except String (List (String × String)) :=
  match value with
  | none => Except.error "TypeError: str expected, not NoneType"
  | some v => Except.ok ((key, v) :: env)

/-- The module-level API key resolution: if the sidebar text input is
non-empty (Python truthiness of a str) its value is stored under
GOOGLE_API_KEY, otherwise os.getenv("gemini") — which is None when the
variable is absent — is stored there.  Runs at import time, before any
file is processed. -/
def resolve_api_key (user_api_key : String)
    (env : List (String × String)) : Except String (List (String × String)) :=
  if user_api_key ≠ "" then
    envSetItem env "GOOGLE_API_KEY" (some user_api_key)
  else
    envSetItem env "GOOGLE_API_KEY" (env.lookup "gemini")

/-- A well-formed filesystem state: every existing name was drawn from the
counter, so the next name is fresh. -/
def FS.wf (fs : FS) : Prop :=
  (∀ d ∈ fs.dirs, d < fs.next) ∧ (∀ p ∈ fs.files, p < fs.next)

instance (fs : FS) : Decidable fs.wf := by
  unfold FS.wf
  infer_instance

/-- Spec reading of the PDF contract: the extracted text of every page
concatenated in page order, with the empty string substituted for a page
that yields no extractable text. -/
def pdfText_spec : List (Option String) → String
  | [] => ""
  | p :: ps => (match p with | none => "" | some t => t) ++ pdfText_spec ps

/-- Spec reading of the DOCX contract: the text of every paragraph in
document order, separated by newlines. -/
def docxText_spec : List String → String
  | [] => ""
  | [p] => p
  | p :: q :: ps => p ++ "\n" ++ docxText_spec (q :: ps)

/-- The records the loop keeps, per file, in walk order (derived
observer used to state batch-level results). -/
def collectRecs (llm : String → Except String ResumeSchema)
    (xs : List Entry) : List ResumeSchema :=
  xs.filterMap fun e =>
    match outcome llm e with
    | Outcome.recorded r => some r
    | _ => none

/-- The warnings the loop records, per file, in walk order. -/
def collectWarns (llm : String → Except String ResumeSchema)
    (xs : List Entry) : List String :=
  xs.filterMap fun e =>
    match outcome llm e with
    | Outcome.warned w => some w
    | _ => none

/-- An empty well-formed filesystem to instantiate the stateful theorems. -/
def fs0 : FS := { dirs := [], files := [], next := 0 }

/-- A record a mocked model could return. -/
def recA : ResumeSchema :=
  { name := "Ada Lovelace", email := "ada@example.com", phone := "123"
    skills := "math", experience_summary := "analyst", education := "home"
    linkedin := "li/ada", github := "gh/ada" }

/-- A deterministic mocked model: parses the one good resume text,
raises on anything else (e.g. because the response is non-compliant). -/
def llmK : String → Except String ResumeSchema := fun t =>
  if t = "GOOD RESUME" then Except.ok recA else Except.error "parse failure"

/-- A readable PDF whose text the mocked model accepts. -/
def goodEntry : Entry :=
  { name := "good.pdf"
    pdfRead := Except.ok [some "GOOD RESUME"]
    docxRead := Except.error "Package not found" }

/-- A corrupt PDF: PdfReader raises on it. -/
def badEntry : Entry :=
  { name := "corrupt.pdf"
    pdfRead := Except.error "EOF marker not found"
    docxRead := Except.error "Package not found" }

/-- A readable PDF whose text makes the mocked model raise. -/
def weirdEntry : Entry :=
  { name := "weird.pdf"
    pdfRead := Except.ok [some "WEIRD"]
    docxRead := Except.error "Package not found" }

/-- A file of unsupported type. -/
def txtEntry : Entry :=
  { name := "notes.txt"
    pdfRead := Except.error "EOF marker not found"
    docxRead := Except.error "Package not found" }

/-! ### Structural lemmas about the file loop -/

/-- One step of the loop, phrased through the per-file outcome. -/
theorem process_files_cons (llm : String → Except String ResumeSchema)
    (e : Entry) (rest : List Entry) :
    process_files llm (e :: rest) =
      match outcome llm e with
      | Outcome.skipped => process_files llm rest
      | Outcome.aborted err => Except.error err
      | Outcome.recorded r =>
        Except.map (fun p => (r :: p.1, p.2)) (process_files llm rest)
      | Outcome.warned w =>
        Except.map (fun p => (p.1, w :: p.2)) (process_files llm rest) := by
  cases hr : readFile e with
  | none => simp [process_files, outcome, hr]
  | some res =>
    cases res with
    | error err => simp [process_files, outcome, hr]
    | ok text =>
      by_cases hb : pyIsBlank text
      · simp [process_files, outcome, hr, hb]
      · cases hl : extract_resume_data llm text with
        | ok r => simp [process_files, outcome, hr, hb, hl]
        | error err => simp [process_files, outcome, hr, hb, hl]

/-- While no file aborts, the loop returns normally with exactly the
kept records and the recorded warnings, in walk order. -/
theorem process_files_no_abort (llm : String → Except String ResumeSchema)
    (xs : List Entry)
    (h : ∀ e ∈ xs, ∀ s, outcome llm e ≠ Outcome.aborted s) :
    process_files llm xs = Except.ok (collectRecs llm xs, collectWarns llm xs) := by
  induction xs with
  | nil => rfl
  | cons e rest ih =>
    have hrest : ∀ x ∈ rest, ∀ s, outcome llm x ≠ Outcome.aborted s :=
      fun x hx => h x (List.mem_cons_of_mem e hx)
    have he := h e (List.mem_cons_self e rest)
    rw [process_files_cons]
    cases ho : outcome llm e with
    | skipped =>
      simp only [ih hrest, collectRecs, collectWarns, List.filterMap_cons, ho]
    | recorded r =>
      simp only [ih hrest, collectRecs, collectWarns, List.filterMap_cons, ho,
        Except.map]
    | warned w =>
      simp only [ih hrest, collectRecs, collectWarns, List.filterMap_cons, ho,
        Except.map]
    | aborted s => exact absurd ho (he s)

/-- If some file's reader raises and every earlier file was skipped or
recorded, the loop stops with that exception. -/
theorem process_files_abort (llm : String → Except String ResumeSchema)
    (pre : List Entry) (ebad : Entry) (post : List Entry) (err : String)
    (hpre : ∀ e ∈ pre,
      outcome llm e = Outcome.skipped ∨ ∃ r, outcome llm e = Outcome.recorded r)
    (hbad : outcome llm ebad = Outcome.aborted err) :
    process_files llm (pre ++ ebad :: post) = Except.error err := by
  induction pre with
  | nil => rw [List.nil_append, process_files_cons, hbad]
  | cons e rest ih =>
    have hrest : ∀ x ∈ rest,
        outcome llm x = Outcome.skipped ∨ ∃ r, outcome llm x = Outcome.recorded r :=
      fun x hx => hpre x (List.mem_cons_of_mem e hx)
    have he := hpre e (List.mem_cons_self e rest)
    rw [List.cons_append, process_files_cons]
    rcases he with he | ⟨r, he⟩
    · rw [he]
      exact ih hrest
    · rw [he, ih hrest]
      rfl

/-- A list of files that are all recorded contributes no warnings. -/
theorem collectWarns_all_recorded (llm : String → Except String ResumeSchema)
    (xs : List Entry)
    (h : ∀ e ∈ xs, ∃ r, outcome llm e = Outcome.recorded r) :
    collectWarns llm xs = [] := by
  induction xs with
  | nil => rfl
  | cons e rest ih =>
    obtain ⟨r, hr⟩ := h e (List.mem_cons_self e rest)
    have := ih fun x hx => h x (List.mem_cons_of_mem e hx)
    simp only [collectWarns, List.filterMap_cons, hr] at this ⊢
    exact this

/-- A list of files that are all recorded contributes one record each. -/
theorem collectRecs_length_all_recorded (llm : String → Except String ResumeSchema)
    (xs : List Entry)
    (h : ∀ e ∈ xs, ∃ r, outcome llm e = Outcome.recorded r) :
    (collectRecs llm xs).length = xs.length := by
  induction xs with
  | nil => rfl
  | cons e rest ih =>
    obtain ⟨r, hr⟩ := h e (List.mem_cons_self e rest)
    have := ih fun x hx => h x (List.mem_cons_of_mem e hx)
    simp only [collectRecs, List.filterMap_cons, hr, List.length_cons] at this ⊢
    omega

/-- Collected records split over list append. -/
theorem collectRecs_append (llm : String → Except String ResumeSchema)
    (xs ys : List Entry) :
    collectRecs llm (xs ++ ys) = collectRecs llm xs ++ collectRecs llm ys := by
  simp [collectRecs, List.filterMap_append]

/-- Collected warnings split over list append. -/
theorem collectWarns_append (llm : String → Except String ResumeSchema)
    (xs ys : List Entry) :
    collectWarns llm (xs ++ ys) = collectWarns llm xs ++ collectWarns llm ys := by
  simp [collectWarns, List.filterMap_append]

/-- Folding the Python join step equals prepending the accumulator to a
separator-prefixed right fold. -/
theorem pyJoin_foldl (sep : String) (xs : List String) :
    ∀ acc : String,
      xs.foldl (fun a y => a ++ sep ++ y) acc =
        acc ++ xs.foldr (fun a b => sep ++ a ++ b) "" := by
  induction xs with
  | nil => intro acc; simp [String.append_empty]
  | cons y ys ih =>
    intro acc
    simp only [List.foldl_cons, List.foldr_cons, ih (acc ++ sep ++ y)]
    simp [String.append_assoc]

/-- The right fold with empty separator computes the page-wise spec text. -/
theorem pdfText_spec_foldr (ps : List (Option String)) :
    (ps.map fun p => p.getD "").foldr (fun a b => "" ++ a ++ b) "" =
      pdfText_spec ps := by
  induction ps with
  | nil => rfl
  | cons p ps ih =>
    simp only [List.map_cons, List.foldr_cons]
    rw [String.empty_append, ih]
    cases p <;> rfl

/-- The right fold with newline separator computes the tail of the
paragraph-wise spec text. -/
theorem docxText_spec_foldr (p : String) (ps : List String) :
    docxText_spec (p :: ps) =
      p ++ ps.foldr (fun a b => "\n" ++ a ++ b) "" := by
  induction ps generalizing p with
  | nil => simp [docxText_spec, String.append_empty]
  | cons q qs ih =>
    simp only [docxText_spec, List.foldr_cons, ih q, String.append_assoc]

/-- Loop over files that are all skipped returns the empty batch. -/
theorem process_files_all_skipped (llm : String → Except String ResumeSchema)
    (xs : List Entry) (h : ∀ e ∈ xs, outcome llm e = Outcome.skipped) :
    process_files llm xs = Except.ok ([], []) := by
  induction xs with
  | nil => rfl
  | cons e rest ih =>
    rw [process_files_cons, h e (List.mem_cons_self e rest)]
    exact ih fun x hx => h x (List.mem_cons_of_mem e hx)

/-! ### The claims -/

/-- Claim C4: write_csv emits first the header row with exactly the eight
field names in declaration order, then one data row per record with the
values in that order, preserving the order of the record list; the empty
list yields the header-only file, and the writer is total. -/
theorem write_csv_header_then_rows :
    (∀ data : List ResumeSchema,
      write_csv_content data =
        csvRow fieldnames ++
          String.join (data.map fun r =>
            csvRow [r.name, r.email, r.phone, r.skills, r.experience_summary,
                    r.education, r.linkedin, r.github])) ∧
    write_csv_content [] =
      "name,email,phone,skills,experience_summary,education,linkedin,github\r\n" ∧
    csvRow fieldnames =
      "name,email,phone,skills,experience_summary,education,linkedin,github\r\n" :=
  ⟨fun _ => rfl, by decide, by decide⟩

/-- Claim C5: read_pdf concatenates the extracted text of every page in
page order, substituting the empty string for a page without extractable
text, and read_docx concatenates the paragraph texts in document order
separated by newlines — both agree with the spec-side readings. -/
theorem readers_match_spec :
    (∀ pages, read_pdf pages = pdfText_spec pages) ∧
    (∀ paragraphs, read_docx paragraphs = docxText_spec paragraphs) := by
  constructor
  · intro pages
    cases pages with
    | nil => rfl
    | cons p ps =>
      show (ps.map fun q => q.getD "").foldl (fun a y => a ++ "" ++ y) (p.getD "") =
        pdfText_spec (p :: ps)
      rw [pyJoin_foldl, pdfText_spec_foldr]
      cases p <;> rfl
  · intro paragraphs
    cases paragraphs with
    | nil => rfl
    | cons p ps =>
      show ps.foldl (fun a y => a ++ "\n" ++ y) p = docxText_spec (p :: ps)
      rw [pyJoin_foldl, docxText_spec_foldr]

/-- Claim C7: one invocation of process_zip leaves the set of scratch
directories exactly as it found it — the directory it created (the next
fresh name) is gone on every exit path, whether the result is a normal
return or a propagated exception. -/
theorem process_zip_cleans_scratch (llm : String → Except String ResumeSchema)
    (zipName : String) (unzip : Except String (List Entry)) (fs : FS)
    (h : fs.wf) :
    ((process_zip llm zipName unzip fs).2).dirs = fs.dirs ∧
    fs.next ∉ ((process_zip llm zipName unzip fs).2).dirs := by
  have hd : ((process_zip llm zipName unzip fs).2).dirs = fs.dirs := by
    simp [process_zip]
  refine ⟨hd, ?_⟩
  rw [hd]
  intro hmem
  exact absurd (h.1 fs.next hmem) (lt_irrefl fs.next)

/-- Witness for C7 at a concrete filesystem and archive. -/
theorem process_zip_cleans_scratch_witness :
    fs0.wf ∧
    (((process_zip llmK "resumes.zip" (Except.ok [goodEntry]) fs0).2).dirs =
        fs0.dirs ∧
      fs0.next ∉ ((process_zip llmK "resumes.zip" (Except.ok [goodEntry]) fs0).2).dirs) :=
  ⟨by decide,
   process_zip_cleans_scratch llmK "resumes.zip" (Except.ok [goodEntry]) fs0
     (by decide)⟩

/-- Claim C9: with the model fixed (a deterministic zero-temperature
oracle), running process_zip twice on the same archive — the second run
on the filesystem state the first one left — produces an identical batch
result and hence byte-identical CSV content. -/
theorem process_zip_idempotent (llm : String → Except String ResumeSchema)
    (zipName : String) (unzip : Except String (List Entry)) (fs : FS) :
    (process_zip llm zipName unzip fs).1 =
      (process_zip llm zipName unzip ((process_zip llm zipName unzip fs).2)).1 ∧
    Except.map (fun p => write_csv_content p.1)
        (process_zip llm zipName unzip fs).1 =
      Except.map (fun p => write_csv_content p.1)
        (process_zip llm zipName unzip ((process_zip llm zipName unzip fs).2)).1 :=
  ⟨rfl, rfl⟩

/-- Claim C10: write_csv creates one fresh persistent file per call
(NamedTemporaryFile with delete=False) holding exactly the CSV content;
it never deletes anything, so the old files survive and each run adds one
more — while process_zip, by contrast, leaves persistent files alone and
cleans only its scratch directory. -/
theorem write_csv_persists_file (data : List ResumeSchema) (fs : FS)
    (h : fs.wf) :
    (write_csv data fs).1.1 ∉ fs.files ∧
    ((write_csv data fs).2).files = (write_csv data fs).1.1 :: fs.files ∧
    ((write_csv data fs).2).wf ∧
    (write_csv data fs).1.2 = write_csv_content data ∧
    (∀ llm zipName unzip,
      ((process_zip llm zipName unzip fs).2).files = fs.files) := by
  refine ⟨?_, rfl, ⟨?_, ?_⟩, rfl, ?_⟩
  · intro hmem
    exact absurd (h.2 fs.next hmem) (lt_irrefl fs.next)
  · intro d hd
    exact Nat.lt_succ_of_lt (h.1 d hd)
  · intro p hp
    rcases List.mem_cons.mp hp with hp | hp
    · rw [hp]; exact Nat.lt_succ_self fs.next
    · exact Nat.lt_succ_of_lt (h.2 p hp)
  · intro llm zipName unzip
    simp [process_zip]

/-- Witness for C10 with a one-record batch on the empty filesystem. -/
theorem write_csv_persists_file_witness :
    fs0.wf ∧
    ((write_csv [recA] fs0).1.1 ∉ fs0.files ∧
      ((write_csv [recA] fs0).2).files = (write_csv [recA] fs0).1.1 :: fs0.files ∧
      ((write_csv [recA] fs0).2).wf ∧
      (write_csv [recA] fs0).1.2 = write_csv_content [recA] ∧
      (∀ llm zipName unzip,
        ((process_zip llm zipName unzip fs0).2).files = fs0.files)) :=
  ⟨by decide, write_csv_persists_file [recA] fs0 (by decide)⟩

/-- Claim C3: when the archive entry itself is skipped, every candidate
before and after the failing file is recorded, and the LLM call raises on
exactly one file, the batch has one record per other file, exactly one
warning — the one naming the failing file — and the records equal those
of the run without the failing file. -/
theorem llm_failure_isolated (llm : String → Except String ResumeSchema)
    (zipName : String) (pre post : List Entry) (bad : Entry) (err : String)
    (fs : FS)
    (hz : outcome llm (zipSelfEntry zipName) = Outcome.skipped)
    (hpre : ∀ e ∈ pre, ∃ r, outcome llm e = Outcome.recorded r)
    (hpost : ∀ e ∈ post, ∃ r, outcome llm e = Outcome.recorded r)
    (hbad : outcome llm bad = Outcome.warned (warnMsg bad.name err)) :
    ∃ recs : List ResumeSchema,
      (process_zip llm zipName (Except.ok (pre ++ bad :: post)) fs).1 =
        Except.ok (recs, [warnMsg bad.name err]) ∧
      recs.length = pre.length + post.length ∧
      (process_zip llm zipName (Except.ok (pre ++ post)) fs).1 =
        Except.ok (recs, []) := by
  have hnr : ∀ (e : Entry), (∃ r, outcome llm e = Outcome.recorded r) →
      ∀ s, outcome llm e ≠ Outcome.aborted s := by
    rintro e ⟨r, hr⟩ s hs
    rw [hr] at hs
    exact Outcome.noConfusion hs
  have h1 : collectRecs llm (bad :: post) = collectRecs llm post := by
    simp only [collectRecs, List.filterMap_cons, hbad]
  have h2 : collectWarns llm (bad :: post) =
      warnMsg bad.name err :: collectWarns llm post := by
    simp only [collectWarns, List.filterMap_cons, hbad]
  have h3 : collectWarns llm post = [] := collectWarns_all_recorded llm post hpost
  have h4 : collectWarns llm pre = [] := collectWarns_all_recorded llm pre hpre
  refine ⟨collectRecs llm pre ++ collectRecs llm post, ?_, ?_, ?_⟩
  · show process_files llm (zipSelfEntry zipName :: (pre ++ bad :: post)) = _
    rw [process_files_cons, hz]
    show process_files llm (pre ++ bad :: post) = _
    rw [process_files_no_abort llm (pre ++ bad :: post) ?_]
    · rw [collectRecs_append, collectWarns_append, h1, h2, h3, h4]
      rfl
    · intro e he s
      rcases List.mem_append.mp he with he | he
      · exact hnr e (hpre e he) s
      · rcases List.mem_cons.mp he with he | he
        · rw [he, hbad]
          exact fun hs => Outcome.noConfusion hs
        · exact hnr e (hpost e he) s
  · rw [List.length_append, collectRecs_length_all_recorded llm pre hpre,
      collectRecs_length_all_recorded llm post hpost]
  · show process_files llm (zipSelfEntry zipName :: (pre ++ post)) = _
    rw [process_files_cons, hz]
    show process_files llm (pre ++ post) = _
    rw [process_files_no_abort llm (pre ++ post) ?_]
    · rw [collectRecs_append, collectWarns_append, h3, h4]
      rfl
    · intro e he s
      rcases List.mem_append.mp he with he | he
      · exact hnr e (hpre e he) s
      · exact hnr e (hpost e he) s

/-- Witness for C3: two candidates, the mocked model raising on the
second; the batch keeps the first record, warns once naming the second
file, and equals the batch without the failing file. -/
theorem llm_failure_isolated_witness :
    ∃ recs : List ResumeSchema,
      (process_zip llmK "resumes.zip"
          (Except.ok ([goodEntry] ++ weirdEntry :: [])) fs0).1 =
        Except.ok (recs, [warnMsg weirdEntry.name "parse failure"]) ∧
      recs.length = 1 ∧
      (process_zip llmK "resumes.zip" (Except.ok ([goodEntry] ++ [])) fs0).1 =
        Except.ok (recs, []) := by
  have h := llm_failure_isolated llmK "resumes.zip" [goodEntry] [] weirdEntry
    "parse failure" fs0 (by decide) ?_ ?_ (by decide)
  · simpa using h
  · intro e he
    rw [List.mem_singleton] at he
    subst he
    exact ⟨recA, by decide⟩
  · intro e he
    exact absurd he (List.not_mem_nil e)

/-- Claim C8: an archive all of whose entries have unsupported extensions
(the uploaded archive file itself included) produces the empty batch with
no warnings — the files are skipped silently. -/
theorem unsupported_only_archive_is_empty
    (llm : String → Except String ResumeSchema) (zipName : String)
    (entries : List Entry) (fs : FS)
    (hz : readFile (zipSelfEntry zipName) = none)
    (hents : ∀ e ∈ entries, readFile e = none) :
    (process_zip llm zipName (Except.ok entries) fs).1 = Except.ok ([], []) := by
  show process_files llm (zipSelfEntry zipName :: entries) = _
  refine process_files_all_skipped llm _ ?_
  intro e he
  rcases List.mem_cons.mp he with he | he
  · rw [he]
    show (match readFile (zipSelfEntry zipName) with
      | none => Outcome.skipped
      | some (Except.error err) => Outcome.aborted err
      | some (Except.ok text) =>
        if pyIsBlank text then Outcome.skipped
        else
          match extract_resume_data llm text with
          | Except.ok r => Outcome.recorded r
          | Except.error err => Outcome.warned (warnMsg (zipSelfEntry zipName).name err)) =
      Outcome.skipped
    rw [hz]
  · show (match readFile e with
      | none => Outcome.skipped
      | some (Except.error err) => Outcome.aborted err
      | some (Except.ok text) =>
        if pyIsBlank text then Outcome.skipped
        else
          match extract_resume_data llm text with
          | Except.ok r => Outcome.recorded r
          | Except.error err => Outcome.warned (warnMsg e.name err)) =
      Outcome.skipped
    rw [hents e he]

/-- Witness for C8: an archive holding a single text file. -/
theorem unsupported_only_archive_is_empty_witness :
    readFile (zipSelfEntry "resumes.zip") = none ∧
    (∀ e ∈ [txtEntry], readFile e = none) ∧
    (process_zip llmK "resumes.zip" (Except.ok [txtEntry]) fs0).1 =
      Except.ok ([], []) :=
  ⟨by decide, by decide,
   unsupported_only_archive_is_empty llmK "resumes.zip" [txtEntry] fs0
     (by decide) (by decide)⟩

/-- Counterexample to claim C1: an archive holding a corrupt PDF followed
by a perfectly readable one.  The reader's exception is raised outside
the try block, so process_zip propagates it: the result is the exception,
not a batch with a warning and the surviving record the claim promises. -/
theorem extractor_failure_aborts_batch_cex :
    (process_zip llmK "resumes.zip" (Except.ok [badEntry, goodEntry]) fs0).1 =
      Except.error "EOF marker not found" ∧
    ¬ ∃ recs warns,
      (process_zip llmK "resumes.zip" (Except.ok [badEntry, goodEntry]) fs0).1 =
        Except.ok (recs, warns) := by
  have h1 : (process_zip llmK "resumes.zip"
      (Except.ok [badEntry, goodEntry]) fs0).1 =
      Except.error "EOF marker not found" := by decide
  refine ⟨h1, ?_⟩
  rintro ⟨recs, warns, h⟩
  rw [h1] at h
  exact Except.noConfusion h

/-- Claim C1 as amended: an exception raised by a Text Extractor is not
isolated — with any earlier files skipped or recorded, it propagates out
of process_zip, aborting the batch with no records and no warning for
that file; only exceptions from the LLM Extraction Call are isolated. -/
theorem extractor_failure_propagates (llm : String → Except String ResumeSchema)
    (zipName : String) (pre post : List Entry) (ebad : Entry) (err : String)
    (fs : FS)
    (hz : outcome llm (zipSelfEntry zipName) = Outcome.skipped)
    (hpre : ∀ e ∈ pre,
      outcome llm e = Outcome.skipped ∨ ∃ r, outcome llm e = Outcome.recorded r)
    (hbad : outcome llm ebad = Outcome.aborted err) :
    (process_zip llm zipName (Except.ok (pre ++ ebad :: post)) fs).1 =
      Except.error err := by
  show process_files llm (zipSelfEntry zipName :: (pre ++ ebad :: post)) = _
  rw [process_files_cons, hz]
  show process_files llm (pre ++ ebad :: post) = _
  exact process_files_abort llm pre ebad post err hpre hbad

/-- Witness for the amended C1: a good resume followed by a corrupt PDF;
the whole batch is lost to the reader's exception. -/
theorem extractor_failure_propagates_witness :
    outcome llmK (zipSelfEntry "resumes.zip") = Outcome.skipped ∧
    outcome llmK badEntry = Outcome.aborted "EOF marker not found" ∧
    (process_zip llmK "resumes.zip"
        (Except.ok ([goodEntry] ++ badEntry :: [goodEntry])) fs0).1 =
      Except.error "EOF marker not found" :=
  ⟨by decide, by decide,
   extractor_failure_propagates llmK "resumes.zip" [goodEntry] [goodEntry]
     badEntry "EOF marker not found" fs0 (by decide)
     (by
       intro e he
       rw [List.mem_singleton] at he
       subst he
       exact Or.inr ⟨recA, by decide⟩)
     (by decide)⟩

/-- Claim C2 (the code bug): with an empty sidebar key and no "gemini"
variable in the environment, the module-level key resolution raises a
TypeError at import time — before any file is processed — instead of
deferring the absence to per-file LLM failures; when the variable is
present (even with an invalid value) resolution succeeds at startup. -/
theorem api_key_resolution_crashes_on_missing_env :
    resolve_api_key "" [("PATH", "/usr/bin")] =
      Except.error "TypeError: str expected, not NoneType" ∧
    (∀ v env, resolve_api_key "" (("gemini", v) :: env) =
      Except.ok (("GOOGLE_API_KEY", v) :: ("gemini", v) :: env)) := by
  refine ⟨by decide, ?_⟩
  intro v env
  simp [resolve_api_key, envSetItem, List.lookup]

/-- Claim C6: every record in a batch result carries exactly the eight
schema keys in declaration order, with string values — the dict view of
any ResumeSchema the LLM Extraction Call can produce has precisely the
fieldnames as its keys. -/
theorem batch_records_have_schema_keys (llm : String → Except String ResumeSchema)
    (zipName : String) (unzip : Except String (List Entry)) (fs : FS)
    (recs : List ResumeSchema) (warns : List String)
    (_h : (process_zip llm zipName unzip fs).1 = Except.ok (recs, warns))
    (r : ResumeSchema) (_hr : r ∈ recs) :
    r.dict.map Prod.fst = fieldnames ∧ r.dict.length = 8 :=
  ⟨rfl, rfl⟩

/-- Witness for C6: a one-file batch whose single record satisfies the
key invariant. -/
theorem batch_records_have_schema_keys_witness :
    (process_zip llmK "resumes.zip" (Except.ok [goodEntry]) fs0).1 =
      Except.ok ([recA], []) ∧
    (recA.dict.map Prod.fst = fieldnames ∧ recA.dict.length = 8) :=
  ⟨by decide,
   batch_records_have_schema_keys llmK "resumes.zip" (Except.ok [goodEntry])
     fs0 [recA] [] (by decide) recA (by decide)⟩
